import Mathlib

/-!
Verification of the family-points application (app.py, Google-Sheets backed,
and app_old.py, SQLite backed) against its natural-language specification.

The worksheet-backed store is modelled at the cell level: `get_all_values`
returns every cell as a `String`; `safe_get_all_records` turns blank cells
into missing values (`Option String`), and the `df_*` helpers normalise the
records the way the pandas code does.  Stateful operations are modelled as
pure functions from the old store (a `List` of rows) to the new one, with the
ambient clock passed explicitly.
-/

/-! ## String primitives

The Lean core versions of trim, lower, take, split, replace and integer
parsing are defined by well-founded recursion over byte positions, which the
kernel cannot evaluate; the claims need concrete evaluation, so the Python
string operations are modelled directly over the character list of the
string.  Each is the plain meaning of the Python operation (for the ASCII
data the sheets hold; Python also lowercases and strips some further Unicode
characters, which no cell in any claim exercises). -/

/-- Python `str.strip()` / pandas `.str.strip()`: drop leading and trailing
whitespace. -/
def pyStrip (s : String) : String :=
  ⟨((s.data.dropWhile Char.isWhitespace).reverse.dropWhile
      Char.isWhitespace).reverse⟩

/-- Python `str.lower()` / pandas `.str.lower()`. -/
def pyLower (s : String) : String :=
  ⟨s.data.map Char.toLower⟩

/-- Python `s[:n]` on strings (character-based). -/
def strTake (s : String) (n : Nat) : String :=
  ⟨s.data.take n⟩

/-- Python `str.replace(a, b)` for one-character pattern and replacement. -/
def replChar (a b : Char) (s : String) : String :=
  ⟨s.data.map (fun c => if c = a then b else c)⟩

/-- Python `str.split(sep)` for a one-character separator, on the character
list: `"".split(",") = [""]`, and every separator occurrence opens a new
field. -/
def splitCharList (sep : Char) : List Char → List (List Char)
  | [] => [[]]
  | c :: rest =>
    let r := splitCharList sep rest
    if c = sep then [] :: r
    else
      match r with
      | [] => [[c]]
      | h :: t => (c :: h) :: t

/-- Python `str.split(sep)` for a one-character separator. -/
def pySplit (sep : Char) (s : String) : List String :=
  (splitCharList sep s.data).map (fun l => ⟨l⟩)

/-- The value of a non-empty all-digit character list, if it is one. -/
def digitsVal (l : List Char) : Option Nat :=
  if l.isEmpty then none
  else if l.all (fun c => c.isDigit) then
    some (l.foldl (fun acc c => acc * 10 + (c.toNat - 48)) 0)
  else none

/-- Integer parsing as `pd.to_numeric` accepts an (already stripped) integer
literal: an optional sign followed by digits. -/
def strToInt (l : List Char) : Option Int :=
  match l with
  | '-' :: rest => (digitsVal rest).map (fun n => -(n : Int))
  | '+' :: rest => (digitsVal rest).map (fun n => (n : Int))
  | _ => (digitsVal l).map (fun n => (n : Int))

/-! ## Cell-level helpers shared by the record readers -/

/-- Normalisation applied to every present cell by safe_get_all_records
(`None if (x is None or str(x).strip() == "") else x`, app.py line 129):
a whitespace-only cell becomes a missing value. -/
def cellOpt (s : String) : Option String :=
  if pyStrip s = "" then none else some s

/-- pandas `astype(str)` on an object column applies Python `str()` to every
element, so a missing value (`None`) becomes the four-letter string "None".
This models the elementwise conversion used in df_goals, df_checkins and
goals_for_kid. -/
def astypeStr (o : Option String) : String :=
  match o with
  | none => "None"
  | some s => s

/-- Truthiness used by df_checkins (line 199) and df_goals (line 176):
`astype(str).str.lower().isin(["true","1","yes"])` (note: no strip). -/
def truthyCell (o : Option String) : Bool :=
  ["true", "1", "yes"].contains (pyLower (astypeStr o))

/-- `pd.to_numeric(..., errors="coerce").fillna(0).astype(int)` on a cell
holding an optional integer literal (df_checkins line 197, df_goals line 174).
to_numeric also accepts float literals, which no claim exercises; missing or
non-numeric cells coerce to 0. -/
def toIntCell (o : Option String) : Int :=
  match o with
  | none => 0
  | some s => (strToInt (pyStrip s).data).getD 0

/-- Python `str.startswith` / pandas `.str.startswith`: the first
`p.length` characters of `s` equal `p`. -/
def strStartsWith (s p : String) : Bool :=
  strTake s p.data.length == p

/-- `.str.startswith` applied to a column that may hold missing values
(monthly_total, app.py line 342).  On a missing value pandas produces NA and
the subsequent boolean mask fails, so this totalisation is only compared to
the code on stores whose date cells are non-blank (hypothesis of claim C1). -/
def optStartsWith (o : Option String) (p : String) : Bool :=
  match o with
  | none => false
  | some s => strStartsWith s p

/-- Python `str(bool)`: the strings written back to the sheet by
upsert_checkin (app.py lines 271-272, 283, 288). -/
def pyBoolStr (b : Bool) : String :=
  if b then "True" else "False"

/-! ## The checkins worksheet (CHECKINS_H, app.py line 136) -/

/-- One data row of the checkins worksheet, one `String` cell per header of
CHECKINS_H = [date, kid_id, kid_name, goal_id, goal_title, points,
child_checked, parent_approved, updated_at]. -/
structure Row where
  date : String
  kid_id : String
  kid_name : String
  goal_id : String
  goal_title : String
  points : String
  child_checked : String
  parent_approved : String
  updated_at : String
deriving Repr, DecidableEq, Inhabited

/-- One record of `df_checkins()` (app.py lines 186-200): cells become
optional strings, points an integer, the two flags booleans. -/
structure CRec where
  date : Option String
  kid_id : Option String
  kid_name : Option String
  goal_id : Option String
  goal_title : Option String
  updated_at : Option String
  points : Int
  child_checked : Bool
  parent_approved : Bool
deriving Repr, DecidableEq

/-- Normalisation of one checkins row by df_checkins. -/
def toCRec (r : Row) : CRec :=
  { date := cellOpt r.date
    kid_id := cellOpt r.kid_id
    kid_name := cellOpt r.kid_name
    goal_id := cellOpt r.goal_id
    goal_title := cellOpt r.goal_title
    updated_at := cellOpt r.updated_at
    points := toIntCell (cellOpt r.points)
    child_checked := truthyCell (cellOpt r.child_checked)
    parent_approved := truthyCell (cellOpt r.parent_approved) }

/-- df_checkins (app.py lines 186-200) as a function of the worksheet data
rows. -/
def df_checkins (rows : List Row) : List CRec :=
  rows.map toCRec

/-- `m["points"].sum()` over a filtered record list. -/
def sumPoints (l : List CRec) : Int :=
  (l.map (fun c => c.points)).sum

/-- monthly_total (app.py lines 336-344): filter by kid, then by month
(`date` starts with target_month), then by child_checked and
parent_approved, and sum the points; 0 on an empty store. -/
def monthly_total (rows : List Row) (kid_id target_month : String) : Int :=
  let df := df_checkins rows
  if df.isEmpty then 0
  else
    let m := df.filter (fun c => c.kid_id == some kid_id)
    let m := m.filter (fun c => optStartsWith c.date target_month)
    let m := m.filter (fun c => c.child_checked && c.parent_approved)
    sumPoints m

/-- total_points_alltime (app.py lines 346-352): approved total over all
dates. -/
def total_points_alltime (rows : List Row) (kid_id : String) : Int :=
  let df := df_checkins rows
  if df.isEmpty then 0
  else
    sumPoints (df.filter
      (fun c => c.kid_id == some kid_id && c.child_checked && c.parent_approved))

/-! ## The goals worksheet (GOALS_H, app.py line 135) -/

/-- One data row of the goals worksheet, one `String` cell per header of
GOALS_H = [id, title, points, active, kid_id]. -/
structure GoalRow where
  id : String
  title : String
  points : String
  active : String
  kid_id : String
deriving Repr, DecidableEq, Inhabited

/-- One record of `df_goals()` (app.py lines 163-184): points an integer,
active a boolean; the audience column is not among the expected headers
GOALS_H, so every record gets audience = "both" (line 179). -/
structure GoalRec where
  id : Option String
  title : Option String
  points : Int
  active : Bool
  kid_id : Option String
  audience : String
deriving Repr, DecidableEq

/-- df_goals (app.py lines 163-184) as a function of the worksheet data
rows. -/
def df_goals (rows : List GoalRow) : List GoalRec :=
  rows.map (fun r =>
    { id := cellOpt r.id
      title := cellOpt r.title
      points := toIntCell (cellOpt r.points)
      active := truthyCell (cellOpt r.active)
      kid_id := cellOpt r.kid_id
      audience := "both" })

/-- Step 1 of goals_for_kid (app.py lines 308-309): the `active` boolean
produced by df_goals goes through `astype(str).str.strip().str.lower()` and
membership in ["true","1","yes"]. -/
def activeKeep (b : Bool) : Bool :=
  ["true", "1", "yes"].contains (pyLower (pyStrip (pyBoolStr b)))

/-- Step 2 of goals_for_kid (app.py lines 313-319): the audience cell,
stripped and lowered, must be "both" or the viewer string (the viewer itself
is not normalised). -/
def audienceKeep (aud viewer : String) : Bool :=
  ["both", viewer].contains (pyLower (pyStrip aud))

/-- Step 3a of goals_for_kid (app.py lines 322-323): the kid_id cell goes
through `astype(str)` (a missing value becomes "None"; the subsequent
`fillna("")` is a no-op because the column already holds strings), full-width
commas are normalised, and the string is split on commas into trimmed
non-empty tokens. -/
def kid_ids_of (o : Option String) : List String :=
  (((pySplit ',' (replChar '，' ',' (astypeStr o))).map
      (fun s => pyStrip s))).filter (fun s => s ≠ "")

/-- Step 3b of goals_for_kid (app.py lines 325-330): an empty token list
matches every kid, a token equal to "all" (case-insensitive) matches every
kid, otherwise the kid must be among the tokens. -/
def is_target (kid : String) (row_ids : List String) : Bool :=
  if row_ids.isEmpty then true
  else if row_ids.any (fun i => pyLower i == "all") then true
  else row_ids.contains kid

/-- goals_for_kid (app.py lines 304-333) as a function of the goals
worksheet data rows. -/
def goals_for_kid (rows : List GoalRow) (kid viewer : String) : List GoalRec :=
  let g := df_goals rows
  let g := g.filter (fun x => activeKeep x.active)
  let g := g.filter (fun x => audienceKeep x.audience viewer)
  g.filter (fun x => is_target kid (kid_ids_of x.kid_id))

/-! ## upsert_checkin (app.py lines 247-301)

The committed file mis-indents line 294 (`if ops:` sits at six spaces between
the four-space function level and the eight-space else-branch level), which is
an IndentationError: importing app.py raises before any function can run.
The definitions below embed the evident intended code, with that line dedented
into the else branch, as claims C3 and C4 describe; the slip itself is
recorded in the results for those claims. -/

/-- The upsert mask (app.py line 256): a row matches the key
(the_date, kid_id, goal_id) when its date, kid_id and goal_id cells, as read
back by df_checkins, equal the key strings. -/
def matchKey (d k g : String) (r : Row) : Bool :=
  cellOpt r.date == some d && cellOpt r.kid_id == some k
    && cellOpt r.goal_id == some g

/-- Index of the first row satisfying the mask
(`df[mask].index[0]`, app.py line 258). -/
def firstMatchIdx (p : Row → Bool) : List Row → Option Nat
  | [] => none
  | r :: rs => if p r then some 0 else (firstMatchIdx p rs).map (fun i => i + 1)

/-- The update branch of upsert_checkin (app.py lines 276-298, with line 294
dedented as intended): rewrite the child_checked cell when set_child is given,
the parent_approved cell when set_parent is given, and always rewrite
updated_at; every other cell of the row is untouched. -/
def updRow (set_child set_parent : Option Bool) (now : String) (r : Row) : Row :=
  { r with
    child_checked :=
      match set_child with
      | some b => pyBoolStr b
      | none => r.child_checked
    parent_approved :=
      match set_parent with
      | some b => pyBoolStr b
      | none => r.parent_approved
    updated_at := now }

/-- The append branch of upsert_checkin (app.py lines 262-275): a fresh row
in CHECKINS_H order whose flags default to False when not given. -/
def newCheckinRow (the_date kid_id kid_name goal_id goal_title : String)
    (set_child set_parent : Option Bool) (points : Int) (now : String) : Row :=
  { date := the_date
    kid_id := kid_id
    kid_name := kid_name
    goal_id := goal_id
    goal_title := goal_title
    points := toString points
    child_checked := pyBoolStr (set_child.getD false)
    parent_approved := pyBoolStr (set_parent.getD false)
    updated_at := now }

/-- upsert_checkin (app.py lines 247-301) over the checkins data rows, with
the ambient clock (now_iso()) passed explicitly. -/
def upsert_checkin (store : List Row)
    (the_date kid_id kid_name goal_id goal_title : String)
    (set_child set_parent : Option Bool) (points : Int) (now : String) :
    List Row :=
  match firstMatchIdx (matchKey the_date kid_id goal_id) store with
  | none =>
      store ++ [newCheckinRow the_date kid_id kid_name goal_id goal_title
        set_child set_parent points now]
  | some i =>
      store.set i (updRow set_child set_parent now (store.getD i default))

/-! ## The retry decorator (app.py lines 28-52) -/

/-- Outcome of one attempt of the wrapped function: a normal return, an
exception of one of the RETRIABLE types carrying an optional HTTP status
(`getattr(getattr(e, "response", None), "status_code", None)`), or an
exception outside RETRIABLE, which the wrapper does not catch. -/
inductive Outcome (α : Type) where
  | ok (v : α)
  | retriable (status : Option Nat)
  | other
deriving Repr

/-- The immediate re-raise test (app.py line 47):
`status and status not in (429, 500, 502, 503, 504)`.  Python truthiness
makes a missing status (None) and status 0 retriable. -/
def stopStatus (st : Option Nat) : Bool :=
  match st with
  | none => false
  | some s => !(s == 0) && !([429, 500, 502, 503, 504].contains s)

/-- An attempt after which the loop keeps going: a RETRIABLE exception whose
status does not force an immediate re-raise. -/
def continues (o : Outcome α) : Bool :=
  match o with
  | .retriable st => !stopStatus st
  | _ => false

/-- The status carried by a retriable outcome. -/
def statusOf (o : Outcome α) : Option Nat :=
  match o with
  | .retriable st => st
  | _ => none

/-- How the wrapper ends (attempt indices count from 0):
`ok v n` - attempt n-1 returned v, which is passed through unchanged;
`raisedStatus i st` - attempt i raised a RETRIABLE exception with a
non-retriable status, re-raised at once (line 48);
`raisedOther i` - attempt i raised outside RETRIABLE, which propagates;
`raisedLast i st` - all attempts failed and the exception of attempt i
(the last one) is re-raised after the loop (line 50);
`raisedNone` - `times = 0`: the loop never runs and `raise last` raises
`None`, a TypeError. -/
inductive RetryResult (α : Type) where
  | ok (v : α) (attempts : Nat)
  | raisedStatus (i : Nat) (status : Option Nat)
  | raisedOther (i : Nat)
  | raisedLast (i : Nat) (status : Option Nat)
  | raisedNone
deriving Repr

/-- How the loop ends when attempt i is the first attempt at which it does
not continue. -/
def stopResult (i : Nat) (o : Outcome α) : RetryResult α :=
  match o with
  | .ok v => .ok v (i + 1)
  | .other => .raisedOther i
  | .retriable st => .raisedStatus i st

/-- The retry loop (app.py lines 38-50): `n` attempts remain, `i` is the next
attempt index, `last` records the attempt index and status of the most recent
retriable failure.  Alongside the result it returns the list of back-off
sleeps performed, each `base_wait * factor ** i` (line 49, floats modelled as
rationals); note the loop sleeps even after its final failed attempt. -/
def retryGo (f : Nat → Outcome α) (base factor : ℚ) :
    Nat → Nat → Option (Nat × Option Nat) → RetryResult α × List ℚ
  | 0, _, none => (.raisedNone, [])
  | 0, _, some (j, st) => (.raisedLast j st, [])
  | n + 1, i, _ =>
    match f i with
    | .ok v => (.ok v (i + 1), [])
    | .other => (.raisedOther i, [])
    | .retriable st =>
      if stopStatus st then (.raisedStatus i st, [])
      else
        let rest := retryGo f base factor n (i + 1) (some (i, st))
        (rest.1, base * factor ^ i :: rest.2)

/-- The wrapper produced by `retry(times, base_wait, factor)` applied to a
function whose attempt outcomes are given by f. -/
def retry (f : Nat → Outcome α) (times : Nat) (base factor : ℚ) :
    RetryResult α × List ℚ :=
  retryGo f base factor times 0 none

/-- First attempt index at which the loop does not continue, if any. -/
def firstStopIdx (f : Nat → Outcome α) (times : Nat) : Option Nat :=
  (List.range times).find? (fun i => !continues (f i))

/-- The back-off sleeps for attempt indices i, i+1, ..., i+n-1. -/
def sleepSeq (base factor : ℚ) (i n : Nat) : List ℚ :=
  (List.range' i n).map (fun j => base * factor ^ j)

/-! ## The parent passcode gate (app.py lines 401-415) -/

/-- `st.secrets.get("parent_pass", "")` with the surrounding try/except: a
missing secret (or a secrets-loading error) yields the empty string. -/
def parent_pass_required (secret : Option String) : String :=
  secret.getD ""

/-- Whether the parent screen is reached on the rerun after the UnLock button
submits `inp`, starting from a locked session (`parent_ok` false): when the
required passcode is empty the gate is skipped entirely (`if required:`,
line 407); otherwise `parent_ok` is set to `inp == required` (line 413) and
`st.stop()` fires unless it became true (lines 414-415). -/
def parent_screen_after_submit (secret : Option String) (inp : String) : Bool :=
  let required := parent_pass_required secret
  if required == "" then true
  else inp == required

/-! ## Timezone handling (app.py lines 16-21, 202-207, 383-391)

Calendar arithmetic is modelled on instants counted in seconds from the Unix
epoch; a timezone is its UTC offset in seconds (Asia/Tokyo is fixed at +9:00,
no daylight saving).  The calendar day named by a local timestamp is the
floor of local seconds over 86400. -/

/-- The configured timezone name: `st.secrets.get("tz", "Asia/Tokyo")`
(app.py line 17). -/
def TZ_NAME (secret_tz : Option String) : String :=
  secret_tz.getD "Asia/Tokyo"

/-- UTC offset of Asia/Tokyo, the default configured timezone, in seconds. -/
def tokyoOffset : Int := 9 * 3600

/-- Calendar day number of the instant t (seconds since epoch) in the zone
with UTC offset tzOff, as named by `datetime.now(TZ)` - the timestamp that
now_iso() writes into updated_at (app.py lines 20-21). -/
def now_iso_day (t tzOff : Int) : Int :=
  Int.fdiv (t + tzOff) 86400

/-- Calendar day number of the instant t as named by `date.today()` - the
date the app stores with a check-in (line 385) and uses to look one up
(line 206).  `date.today()` uses the process-local timezone serverOff, not
the configured one. -/
def today_day (t serverOff : Int) : Int :=
  Int.fdiv (t + serverOff) 86400

/-! ## safe_get_all_records (app.py lines 93-130) -/

/-- safe_get_all_records over the worksheet value matrix (every cell a
string, as returned by `get_all_values`).  An entirely empty sheet yields the
empty record list (after a remote header repair, which touches no data).
When the stripped first row differs from the expected headers the code
repairs the sheet remotely and re-reads it; that path leaves the model
(`none`) and lies outside the premise of claim C9.  Otherwise each data row
is padded with missing values to the header count, or truncated to it, and
every blank cell becomes a missing value; the records are keyed by the
headers in order (`to_dict(orient="records")`, modelled as association
lists). -/
def safe_get_all_records (vals : List (List String))
    (expected : List String) : Option (List (List (String × Option String))) :=
  match vals with
  | [] => some []
  | first :: rows =>
    let headers := first.map (fun h => pyStrip h)
    if headers ≠ expected then none
    else if rows.isEmpty then some []
    else
      let n := headers.length
      some (rows.map (fun r =>
        headers.zip (((r.map cellOpt).take n) ++
          List.replicate (n - r.length) none)))

/-! ## The SQLite variant (app_old.py) -/

/-- A row of the kids table (app_old.py lines 15-20). -/
structure SKid where
  id : Int
  name : String
  grade : String
  active : Int
deriving Repr, DecidableEq

/-- A row of the goals table (app_old.py lines 21-27). -/
structure SGoal where
  id : Int
  title : String
  base_points : Int
  category : String
  active : Int
deriving Repr, DecidableEq

/-- A row of the checkins table (app_old.py lines 28-38); the surrogate
AUTOINCREMENT id is not modelled, the logical key is (d, kid_id, goal_id). -/
structure SCheckin where
  d : String
  kid_id : Int
  goal_id : Int
  self_checked : Int
  parent_approved : Int
deriving Repr, DecidableEq

/-- The contribution of `JOIN goals g ON g.id = c.goal_id` for one check-in:
the base_points summed over the matching goals rows (exactly one match under
the goals primary key). -/
def joinBasePoints (goals : List SGoal) (gid : Int) : Int :=
  (((goals.filter (fun g => g.id == gid)).map (fun g => g.base_points))).sum

/-- kid_points_total (app_old.py lines 124-133):
COALESCE(SUM(g.base_points), 0) over check-ins of the kid with
self_checked = 1 and parent_approved = 1, joined to goals. -/
def kid_points_total (goals : List SGoal) (checkins : List SCheckin)
    (kid : Int) : Int :=
  ((checkins.filter (fun c =>
      c.kid_id == kid && c.self_checked == 1 && c.parent_approved == 1)).map
    (fun c => joinBasePoints goals c.goal_id)).sum

/-- kid_points_this_month (app_old.py lines 135-148): as kid_points_total
restricted by `substr(c.d, 1, 7) = ym`, where ym is the current month
'YYYY-MM' (here a parameter). -/
def kid_points_this_month (goals : List SGoal) (checkins : List SCheckin)
    (kid : Int) (ym : String) : Int :=
  ((checkins.filter (fun c =>
      c.kid_id == kid && c.self_checked == 1 && c.parent_approved == 1
        && strTake c.d 7 == ym)).map
    (fun c => joinBasePoints goals c.goal_id)).sum

/-- Whether a check-in with the key (d, kid_id, goal_id) exists - the
condition under which the UNIQUE(d, kid_id, goal_id) constraint makes
INSERT OR IGNORE ignore the insert. -/
def hasKey (cs : List SCheckin) (d : String) (k g : Int) : Bool :=
  cs.any (fun c => c.d == d && c.kid_id == k && c.goal_id == g)

/-- `INSERT OR IGNORE INTO checkins (d, kid_id, goal_id, self_checked,
parent_approved) VALUES (?, ?, ?, 0, 0)` (app_old.py line 64). -/
def insertOrIgnore (d : String) (k g : Int) (cs : List SCheckin) :
    List SCheckin :=
  if hasKey cs d k g then cs else cs ++ [⟨d, k, g, 0, 0⟩]

/-- The active kid ids (`SELECT id FROM kids WHERE active=1`). -/
def activeKidIds (kids : List SKid) : List Int :=
  (kids.filter (fun k => k.active == 1)).map (fun k => k.id)

/-- The active goal ids (`SELECT id FROM goals WHERE active=1`). -/
def activeGoalIds (goals : List SGoal) : List Int :=
  (goals.filter (fun g => g.active == 1)).map (fun g => g.id)

/-- ensure_today_checkins (app_old.py lines 54-66): for every active kid and
every active goal, INSERT OR IGNORE a fresh unchecked check-in for today. -/
def ensure_today_checkins (today : String) (kids : List SKid)
    (goals : List SGoal) (cs : List SCheckin) : List SCheckin :=
  (activeKidIds kids).foldl
    (fun acc k => (activeGoalIds goals).foldl
      (fun acc2 g => insertOrIgnore today k g acc2) acc) cs

/-- The logical key of a check-in row. -/
def keyOf (c : SCheckin) : String × Int × Int :=
  (c.d, c.kid_id, c.goal_id)

/-- At most one check-in row per (d, kid_id, goal_id) key - the invariant the
UNIQUE constraint maintains. -/
def keysNodup (cs : List SCheckin) : Prop :=
  cs.Pairwise (fun a b => keyOf a ≠ keyOf b)

/-! ## Correspondence between the two revisions (claim C5) -/

/-- Correspondence between one checkins worksheet row and one SQLite checkins
row, relative to the goals table and to the queried kid (kidS in the sheet,
kidI in the database): they carry the same date, agree on whether they belong
to the queried kid, agree on the self-check and approval flags, and the
sheet row's recorded points equal the base_points of the row's goal (the
join contribution, which the claim's premise equates with the recorded
points). -/
def corrRow (goals : List SGoal) (kidS : String) (kidI : Int)
    (r : Row) (c : SCheckin) : Prop :=
  cellOpt r.date = some c.d ∧
  (cellOpt r.kid_id == some kidS) = (c.kid_id == kidI) ∧
  truthyCell (cellOpt r.child_checked) = (c.self_checked == 1) ∧
  truthyCell (cellOpt r.parent_approved) = (c.parent_approved == 1) ∧
  toIntCell (cellOpt r.points) = joinBasePoints goals c.goal_id

/-! ## The kid-goal pair view of ensure_today_checkins (claim C10) -/

/-- All (kid, goal) pairs visited by the nested loops of
ensure_today_checkins, outer kids first. -/
def pairsOf : List Int → List Int → List (Int × Int)
  | [], _ => []
  | k :: ks, gs => gs.map (fun g => (k, g)) ++ pairsOf ks gs

/-- The nested loops of ensure_today_checkins flattened into one fold over
the kid-goal pairs. -/
def insertPairs (today : String) (ps : List (Int × Int))
    (cs : List SCheckin) : List SCheckin :=
  ps.foldl (fun acc p => insertOrIgnore today p.1 p.2 acc) cs

/-! ## Helper lemmas -/

lemma filter_filter_fuse (p q : α → Bool) (l : List α) :
    (l.filter p).filter q = l.filter (fun a => p a && q a) := by
  induction l with
  | nil => rfl
  | cons a l ih =>
    cases hp : p a <;> cases hq : q a <;>
      simp [List.filter_cons, hp, hq, ih]

lemma filter_ext (p q : α → Bool) (h : ∀ a, p a = q a) (l : List α) :
    l.filter p = l.filter q := by
  rw [show p = q from funext h]

lemma monthly_total_eq_filter (rows : List Row) (kid ym : String) :
    monthly_total rows kid ym =
      sumPoints ((df_checkins rows).filter (fun c =>
        c.kid_id == some kid && optStartsWith c.date ym &&
          c.child_checked && c.parent_approved)) := by
  have hdef : monthly_total rows kid ym =
      if (df_checkins rows).isEmpty then (0 : Int)
      else sumPoints ((((df_checkins rows).filter
          (fun c => c.kid_id == some kid)).filter
            (fun c => optStartsWith c.date ym)).filter
              (fun c => c.child_checked && c.parent_approved)) := rfl
  rw [hdef]
  by_cases h : (df_checkins rows).isEmpty
  · rw [if_pos h, List.isEmpty_iff.mp h]
    rfl
  · rw [if_neg h, filter_filter_fuse, filter_filter_fuse]
    congr 1
    apply filter_ext
    intro a
    cases a.kid_id == some kid <;> cases optStartsWith a.date ym <;>
      cases a.child_checked <;> cases a.parent_approved <;> rfl

lemma total_points_alltime_eq_filter (rows : List Row) (kid : String) :
    total_points_alltime rows kid =
      sumPoints ((df_checkins rows).filter (fun c =>
        c.kid_id == some kid && c.child_checked && c.parent_approved)) := by
  have hdef : total_points_alltime rows kid =
      if (df_checkins rows).isEmpty then (0 : Int)
      else sumPoints ((df_checkins rows).filter (fun c =>
        c.kid_id == some kid && c.child_checked && c.parent_approved)) := rfl
  rw [hdef]
  by_cases h : (df_checkins rows).isEmpty
  · rw [if_pos h, List.isEmpty_iff.mp h]
    rfl
  · rw [if_neg h]

/-! ## Claim C1 -/

/-- Claim C1: for every kid_id and month string ym, monthly_total is the
integer sum of the points of exactly the check-in records of that kid whose
date starts with ym and whose child_checked and parent_approved are both
true; total_points_alltime is the same sum without the month restriction;
both are 0 on an empty store.  The hypothesis restricts to stores whose date
cells are non-blank, where the pandas startswith mask is defined. -/
theorem claim_C1 (rows : List Row) (kid ym : String)
    (hdates : ∀ r ∈ rows, pyStrip r.date ≠ "") :
    monthly_total rows kid ym =
      sumPoints ((df_checkins rows).filter (fun c =>
        c.kid_id == some kid && optStartsWith c.date ym &&
          c.child_checked && c.parent_approved)) ∧
    total_points_alltime rows kid =
      sumPoints ((df_checkins rows).filter (fun c =>
        c.kid_id == some kid && c.child_checked && c.parent_approved)) ∧
    (rows = [] → monthly_total rows kid ym = 0 ∧
      total_points_alltime rows kid = 0) := by
  refine ⟨monthly_total_eq_filter rows kid ym,
    total_points_alltime_eq_filter rows kid, ?_⟩
  intro h
  subst h
  exact ⟨rfl, rfl⟩

/-- Witness for claim C1 at a concrete one-row store, together with a
concrete evaluation of both totals on it. -/
theorem claim_C1_witness :
    (monthly_total [⟨"2025-09-14", "k1", "Mio", "g1", "run", "3", "TRUE",
        "true", "2025-09-14T20:00:00+09:00"⟩] "k1" "2025-09" =
      sumPoints ((df_checkins [⟨"2025-09-14", "k1", "Mio", "g1", "run", "3",
          "TRUE", "true", "2025-09-14T20:00:00+09:00"⟩]).filter (fun c =>
        c.kid_id == some "k1" && optStartsWith c.date "2025-09" &&
          c.child_checked && c.parent_approved))) ∧
    monthly_total [⟨"2025-09-14", "k1", "Mio", "g1", "run", "3", "TRUE",
        "true", "2025-09-14T20:00:00+09:00"⟩] "k1" "2025-09" = 3 ∧
    total_points_alltime [⟨"2025-09-14", "k1", "Mio", "g1", "run", "3",
        "TRUE", "true", "2025-09-14T20:00:00+09:00"⟩] "k1" = 3 := by
  refine ⟨(claim_C1 [⟨"2025-09-14", "k1", "Mio", "g1", "run", "3", "TRUE",
    "true", "2025-09-14T20:00:00+09:00"⟩] "k1" "2025-09" (by decide)).1,
    by decide, by decide⟩

/-! ## Claim C2 -/

/-- Claim C2 (code-bug evidence): a goal whose kid_id cell is blank - the
"common goal" of the code's own comment on GOALS_H and of the three seeded
goal rows - is returned to no kid at all, because pandas `astype(str)` turns
the missing cell into the string "None" before `fillna("")` can replace it,
so the token list is ["None"] rather than empty and `is_target` falls through
to membership.  The claim (and the code's evident intent) says this active
goal applies to every kid; goals_for_kid returns the empty list. -/
theorem claim_C2_blank_kid_id_excluded :
    goals_for_kid [⟨"g1", "running", "3", "TRUE", ""⟩] "k1" "child" = [] ∧
    kid_ids_of (cellOpt "") = ["None"] ∧
    is_target "k1" [] = true := by
  refine ⟨by decide, by decide, rfl⟩

/-! ## Claim C7 -/

/-- Claim C7: with a non-empty configured parent_pass, the parent screen is
reached after a submit exactly when the entered string equals the passcode;
with a missing or empty parent_pass, the parent screen is reached without
any passcode. -/
theorem claim_C7 (secret : Option String) (pass inp : String) :
    (secret = some pass → pass ≠ "" →
      (parent_screen_after_submit secret inp = true ↔ inp = pass)) ∧
    ((secret = none ∨ secret = some "") →
      parent_screen_after_submit secret inp = true) := by
  constructor
  · intro hs hne
    subst hs
    simp only [parent_screen_after_submit, parent_pass_required, Option.getD]
    rw [if_neg (by simpa using hne)]
    simp
  · intro hs
    rcases hs with h | h <;> subst h <;> rfl

/-- Witness for claim C7: the right passcode unlocks, a wrong one does not,
and an unset passcode leaves the screen open. -/
theorem claim_C7_witness :
    (parent_screen_after_submit (some "sesame") "sesame" = true ↔
      ("sesame" : String) = "sesame") ∧
    (parent_screen_after_submit (some "sesame") "guess" = true ↔
      ("guess" : String) = "sesame") ∧
    parent_screen_after_submit none "anything" = true := by
  refine ⟨(claim_C7 (some "sesame") "sesame" "sesame").1 rfl (by decide),
    (claim_C7 (some "sesame") "sesame" "guess").1 rfl (by decide),
    (claim_C7 none "x" "anything").2 (Or.inl rfl)⟩

/-! ## Claim C8 -/

/-- Claim C8 fails on the code: the updated_at timestamp is taken in the
configured timezone (datetime.now(TZ)), but the check-in date is
date.today(), the process-local calendar date.  At 23:00 UTC on the epoch
day, a server running in UTC stores day 0 while the Asia/Tokyo updated_at
names day 1. -/
theorem claim_C8_counterexample :
    ¬ today_day 82800 0 = now_iso_day 82800 tokyoOffset := by decide

/-- Claim C8 as amended: the updated_at timestamp is computed in the
configured timezone, but the stored and looked-up "today" date comes from
date.today() in the process-local timezone; the stored date and the
updated_at timestamp name the same calendar day whenever the process-local
offset agrees with the configured zone's offset (in particular when the
server runs in the configured timezone). -/
theorem claim_C8_amended (t serverOff tzOff : Int) (h : serverOff = tzOff) :
    today_day t serverOff = now_iso_day t tzOff := by
  subst h
  rfl

/-- Witness for the amended claim C8 on a server running in the configured
Asia/Tokyo timezone. -/
theorem claim_C8_amended_witness :
    today_day 82800 tokyoOffset = now_iso_day 82800 tokyoOffset :=
  claim_C8_amended 82800 tokyoOffset tokyoOffset rfl

/-! ## Claims C3 and C4: lemmas about the first-match index -/

lemma firstMatchIdx_eq_none (p : Row → Bool) (l : List Row)
    (h : ∀ r ∈ l, p r = false) : firstMatchIdx p l = none := by
  induction l with
  | nil => rfl
  | cons r rs ih =>
    have hr : p r = false := h r (List.mem_cons_self r rs)
    simp only [firstMatchIdx, hr, if_neg Bool.false_ne_true]
    rw [ih (fun x hx => h x (List.mem_cons_of_mem r hx))]
    rfl

lemma firstMatchIdx_of_first (p : Row → Bool) (l : List Row) (i : Nat)
    (hi : i < l.length) (hp : p (l.getD i default) = true)
    (hfirst : ∀ j, j < i → p (l.getD j default) = false) :
    firstMatchIdx p l = some i := by
  induction l generalizing i with
  | nil => simp at hi
  | cons r rs ih =>
    cases i with
    | zero =>
      simp only [List.getD_cons_zero] at hp
      simp [firstMatchIdx, hp]
    | succ j =>
      have hr : p r = false := by
        have := hfirst 0 (Nat.succ_pos j)
        simpa using this
      simp only [firstMatchIdx, hr, if_neg Bool.false_ne_true]
      rw [ih j (by simpa using hi) (by simpa using hp)
        (fun m hm => by simpa using hfirst (m + 1) (Nat.succ_lt_succ hm))]
      rfl

lemma getD_set_ne (l : List Row) (i j : Nat) (a d : Row) (h : j ≠ i) :
    (l.set i a).getD j d = l.getD j d := by
  induction l generalizing i j with
  | nil => rfl
  | cons r rs ih =>
    cases i with
    | zero =>
      cases j with
      | zero => exact absurd rfl h
      | succ m => simp [List.set]
    | succ n =>
      cases j with
      | zero => simp [List.set]
      | succ m =>
        simp only [List.set, List.getD_cons_succ]
        exact ih n m (fun hc => h (by rw [hc]))

lemma getD_set_self (l : List Row) (i : Nat) (a d : Row)
    (h : i < l.length) : (l.set i a).getD i d = a := by
  induction l generalizing i with
  | nil => simp at h
  | cons r rs ih =>
    cases i with
    | zero => rfl
    | succ n =>
      simp only [List.set, List.getD_cons_succ]
      exact ih n (by simpa using h)

/-! ## Claim C3 -/

/-- Claim C3 over the intended code (the committed file is a syntax error at
line 294, recorded with the claim): upsert_checkin keys on
(the_date, kid_id, goal_id); with no matching row it appends exactly one row
carrying the given date, kid, goal, title and points, with flags from
set_child / set_parent defaulting to False; with a matching row it updates
the first match in place and appends nothing.  The final conjunct shows the
flag cells written for a new row read back as the given booleans. -/
theorem claim_C3 (store : List Row) (d k kn g gt : String)
    (sc sp : Option Bool) (pts : Int) (now : String) :
    ((∀ r ∈ store, matchKey d k g r = false) →
      upsert_checkin store d k kn g gt sc sp pts now =
        store ++ [⟨d, k, kn, g, gt, toString pts, pyBoolStr (sc.getD false),
          pyBoolStr (sp.getD false), now⟩]) ∧
    (∀ i, i < store.length → matchKey d k g (store.getD i default) = true →
      (∀ j, j < i → matchKey d k g (store.getD j default) = false) →
      upsert_checkin store d k kn g gt sc sp pts now =
        store.set i (updRow sc sp now (store.getD i default)) ∧
      (upsert_checkin store d k kn g gt sc sp pts now).length =
        store.length) ∧
    (∀ b : Bool, truthyCell (cellOpt (pyBoolStr b)) = b) := by
  refine ⟨?_, ?_, by decide⟩
  · intro h
    unfold upsert_checkin
    rw [firstMatchIdx_eq_none _ _ h]
    rfl
  · intro i hi hm hfirst
    unfold upsert_checkin
    rw [firstMatchIdx_of_first _ _ i hi hm hfirst]
    exact ⟨rfl, List.length_set store i _⟩

/-- Witness for claim C3: appending a fresh check-in to the empty store, and
updating it in place (approval toggled on, no second row) on the store that
now contains it. -/
theorem claim_C3_witness :
    upsert_checkin [] "2025-09-14" "k1" "Mio" "g1" "run" (some true) none 3
        "T1" =
      [⟨"2025-09-14", "k1", "Mio", "g1", "run", "3", "True", "False", "T1"⟩] ∧
    upsert_checkin
        [⟨"2025-09-14", "k1", "Mio", "g1", "run", "3", "True", "False", "T1"⟩]
        "2025-09-14" "k1" "Mio" "g1" "run" none (some true) 3 "T2" =
      [⟨"2025-09-14", "k1", "Mio", "g1", "run", "3", "True", "True", "T2"⟩] := by
  constructor
  · have h := (claim_C3 [] "2025-09-14" "k1" "Mio" "g1" "run" (some true)
      none 3 "T1").1 (by intro r hr; simp at hr)
    rw [h]
    decide
  · have h := ((claim_C3
      [⟨"2025-09-14", "k1", "Mio", "g1", "run", "3", "True", "False", "T1"⟩]
      "2025-09-14" "k1" "Mio" "g1" "run" none (some true) 3 "T2").2.1 0
      (by decide) (by decide)
      (fun j hj => absurd hj (Nat.not_lt_zero j))).1
    rw [h]
    decide

/-! ## Claim C4 -/

/-- Claim C4 over the intended code (the committed file is a syntax error at
line 294, recorded with the claim): when upsert_checkin updates the existing
(first matching) check-in row, the only cells that change are child_checked
(only when set_child is given), parent_approved (only when set_parent is
given) and updated_at, which is always rewritten to the current time; the
row's other six cells and every other row are left unchanged. -/
theorem claim_C4 (store : List Row) (d k kn g gt : String)
    (sc sp : Option Bool) (pts : Int) (now : String) (i : Nat)
    (res : List Row)
    (hi : i < store.length)
    (hm : matchKey d k g (store.getD i default) = true)
    (hfirst : ∀ j, j < i → matchKey d k g (store.getD j default) = false)
    (hres : res = upsert_checkin store d k kn g gt sc sp pts now) :
    res.length = store.length ∧
    (∀ j, j ≠ i → res.getD j default = store.getD j default) ∧
    (res.getD i default).date = (store.getD i default).date ∧
    (res.getD i default).kid_id = (store.getD i default).kid_id ∧
    (res.getD i default).kid_name = (store.getD i default).kid_name ∧
    (res.getD i default).goal_id = (store.getD i default).goal_id ∧
    (res.getD i default).goal_title = (store.getD i default).goal_title ∧
    (res.getD i default).points = (store.getD i default).points ∧
    (res.getD i default).updated_at = now ∧
    (sc = none → (res.getD i default).child_checked =
      (store.getD i default).child_checked) ∧
    (∀ b, sc = some b → (res.getD i default).child_checked = pyBoolStr b) ∧
    (sp = none → (res.getD i default).parent_approved =
      (store.getD i default).parent_approved) ∧
    (∀ b, sp = some b → (res.getD i default).parent_approved = pyBoolStr b)
    := by
  have hset : res = store.set i (updRow sc sp now (store.getD i default)) := by
    rw [hres]
    unfold upsert_checkin
    rw [firstMatchIdx_of_first _ _ i hi hm hfirst]
  subst hset
  have hgi : (store.set i (updRow sc sp now (store.getD i default))).getD i
      default = updRow sc sp now (store.getD i default) :=
    getD_set_self store i _ default hi
  refine ⟨List.length_set store i _, fun j hj => getD_set_ne store i j _
    default hj, ?_, ?_, ?_, ?_, ?_, ?_, ?_, ?_, ?_, ?_, ?_⟩
  · rw [hgi]; rfl
  · rw [hgi]; rfl
  · rw [hgi]; rfl
  · rw [hgi]; rfl
  · rw [hgi]; rfl
  · rw [hgi]; rfl
  · rw [hgi]; rfl
  · intro hsc; subst hsc; rw [hgi]; rfl
  · intro b hsc; subst hsc; rw [hgi]; rfl
  · intro hsp; subst hsp; rw [hgi]; rfl
  · intro b hsp; subst hsp; rw [hgi]; rfl

/-- Witness for claim C4 on a two-row store: updating the second row
approves it in place, refreshes its timestamp and leaves the first row and
every identifying cell untouched. -/
theorem claim_C4_witness :
    (upsert_checkin
      [⟨"2025-09-13", "k1", "Mio", "g1", "run", "3", "True", "False", "T0"⟩,
       ⟨"2025-09-14", "k1", "Mio", "g1", "run", "3", "True", "False", "T1"⟩]
      "2025-09-14" "k1" "Mio" "g1" "run" none (some true) 3 "T2").length = 2 ∧
    (upsert_checkin
      [⟨"2025-09-13", "k1", "Mio", "g1", "run", "3", "True", "False", "T0"⟩,
       ⟨"2025-09-14", "k1", "Mio", "g1", "run", "3", "True", "False", "T1"⟩]
      "2025-09-14" "k1" "Mio" "g1" "run" none (some true) 3 "T2").getD 0
        default =
      ⟨"2025-09-13", "k1", "Mio", "g1", "run", "3", "True", "False", "T0"⟩ ∧
    ((upsert_checkin
      [⟨"2025-09-13", "k1", "Mio", "g1", "run", "3", "True", "False", "T0"⟩,
       ⟨"2025-09-14", "k1", "Mio", "g1", "run", "3", "True", "False", "T1"⟩]
      "2025-09-14" "k1" "Mio" "g1" "run" none (some true) 3 "T2").getD 1
        default).updated_at = "T2" ∧
    ((upsert_checkin
      [⟨"2025-09-13", "k1", "Mio", "g1", "run", "3", "True", "False", "T0"⟩,
       ⟨"2025-09-14", "k1", "Mio", "g1", "run", "3", "True", "False", "T1"⟩]
      "2025-09-14" "k1" "Mio" "g1" "run" none (some true) 3 "T2").getD 1
        default).parent_approved = pyBoolStr true := by
  have h := claim_C4
    [⟨"2025-09-13", "k1", "Mio", "g1", "run", "3", "True", "False", "T0"⟩,
     ⟨"2025-09-14", "k1", "Mio", "g1", "run", "3", "True", "False", "T1"⟩]
    "2025-09-14" "k1" "Mio" "g1" "run" none (some true) 3 "T2" 1 _
    (by decide) (by decide)
    (by intro j hj
        have hj0 : j = 0 := by omega
        subst hj0
        decide)
    rfl
  exact ⟨h.1, h.2.1 0 (by decide), h.2.2.2.2.2.2.2.2.1,
    h.2.2.2.2.2.2.2.2.2.2.2.2 true rfl⟩

/-! ## Claim C5 -/

lemma sum_corr_aux (R : Row → SCheckin → Prop) (fP : CRec → Bool)
    (fQ : SCheckin → Bool) (gval : SCheckin → Int)
    (hpt : ∀ r c, R r c → fP (toCRec r) = fQ c ∧ (toCRec r).points = gval c) :
    ∀ rows cs, List.Forall₂ R rows cs →
      sumPoints ((df_checkins rows).filter fP) =
        ((cs.filter fQ).map gval).sum := by
  intro rows cs h
  induction h with
  | nil => rfl
  | @cons a b l1 l2 hrc htail ih =>
    obtain ⟨hg, hv⟩ := hpt _ _ hrc
    have e1 : df_checkins (a :: l1) = toCRec a :: df_checkins l1 := rfl
    rw [e1, List.filter_cons, List.filter_cons, hg]
    cases hq : fQ b
    · simp only [Bool.false_eq_true, if_false]
      exact ih
    · simp only [if_true]
      have e2 : sumPoints (toCRec a :: (df_checkins l1).filter fP) =
          (toCRec a).points + sumPoints ((df_checkins l1).filter fP) := by
        simp [sumPoints]
      rw [e2, hv, ih]
      simp

/-- Claim C5: over corresponding stores - pairwise related check-in rows
that carry the same date, agree on membership of the queried kid and on both
flags, and whose recorded sheet points equal the base_points of their goal -
the Sheets monthly_total equals the SQLite kid_points_this_month for the
current month (any 7-character 'YYYY-MM' string), and total_points_alltime
equals kid_points_total. -/
theorem claim_C5 (goals : List SGoal) (rows : List Row) (cs : List SCheckin)
    (kidS : String) (kidI : Int) (ym : String) (hym : ym.length = 7)
    (hcorr : List.Forall₂ (corrRow goals kidS kidI) rows cs) :
    monthly_total rows kidS ym = kid_points_this_month goals cs kidI ym ∧
    total_points_alltime rows kidS = kid_points_total goals cs kidI := by
  have hym7 : ym.data.length = 7 := hym
  constructor
  · rw [monthly_total_eq_filter]
    exact sum_corr_aux (corrRow goals kidS kidI) _ _ _
      (by
        intro r c hrc
        obtain ⟨hd, hkid, hch, hap, hpts⟩ := hrc
        constructor
        · show ((cellOpt r.kid_id == some kidS) &&
              optStartsWith (cellOpt r.date) ym &&
              truthyCell (cellOpt r.child_checked) &&
              truthyCell (cellOpt r.parent_approved)) = _
          rw [hkid, hch, hap, hd]
          show ((c.kid_id == kidI) && strStartsWith c.d ym &&
              (c.self_checked == 1) && (c.parent_approved == 1)) = _
          have h7 : strStartsWith c.d ym = (strTake c.d 7 == ym) := by
            unfold strStartsWith
            rw [hym7]
          rw [h7]
          cases c.kid_id == kidI <;> cases c.self_checked == (1 : Int) <;>
            cases c.parent_approved == (1 : Int) <;>
            cases strTake c.d 7 == ym <;> rfl
        · exact hpts)
      rows cs hcorr
  · rw [total_points_alltime_eq_filter]
    exact sum_corr_aux (corrRow goals kidS kidI) _ _ _
      (by
        intro r c hrc
        obtain ⟨hd, hkid, hch, hap, hpts⟩ := hrc
        constructor
        · show ((cellOpt r.kid_id == some kidS) &&
              truthyCell (cellOpt r.child_checked) &&
              truthyCell (cellOpt r.parent_approved)) = _
          rw [hkid, hch, hap]
        · exact hpts)
      rows cs hcorr

/-- Witness for claim C5 on a concrete corresponding pair: one approved
check-in of kid "k7" / kid 7 on goal 5 worth 3 base points, and the month
2025-09. -/
theorem claim_C5_witness :
    (monthly_total
        [⟨"2025-09-14", "k7", "Mio", "g5", "run", "3", "true", "1", "T1"⟩]
        "k7" "2025-09" =
      kid_points_this_month [⟨5, "run", 3, "sport", 1⟩]
        [⟨"2025-09-14", 7, 5, 1, 1⟩] 7 "2025-09") ∧
    (total_points_alltime
        [⟨"2025-09-14", "k7", "Mio", "g5", "run", "3", "true", "1", "T1"⟩]
        "k7" =
      kid_points_total [⟨5, "run", 3, "sport", 1⟩]
        [⟨"2025-09-14", 7, 5, 1, 1⟩] 7) ∧
    monthly_total
        [⟨"2025-09-14", "k7", "Mio", "g5", "run", "3", "true", "1", "T1"⟩]
        "k7" "2025-09" = 3 := by
  have h := claim_C5 [⟨5, "run", 3, "sport", 1⟩]
    [⟨"2025-09-14", "k7", "Mio", "g5", "run", "3", "true", "1", "T1"⟩]
    [⟨"2025-09-14", 7, 5, 1, 1⟩] "k7" 7 "2025-09" (by decide)
    (List.Forall₂.cons
    ⟨by decide, by decide, by decide, by decide, by decide⟩ List.Forall₂.nil)
  exact ⟨h.1, h.2, by decide⟩

/-! ## Claim C6 -/

lemma range1_lower : ∀ (n s j : Nat), j ∈ List.range' s n → s ≤ j := by
  intro n
  induction n with
  | zero =>
    intro s j h
    simp [List.range'] at h
  | succ m ih =>
    intro s j h
    have e : List.range' s (m + 1) = s :: List.range' (s + 1) m := rfl
    rw [e] at h
    rcases List.mem_cons.mp h with h1 | h2
    · omega
    · have := ih (s + 1) j h2
      omega

lemma retryGo_eq (f : Nat → Outcome α) (base factor : ℚ) :
    ∀ (n i : Nat) (last : Option (Nat × Option Nat)),
      retryGo f base factor n i last =
        match (List.range' i n).find? (fun j => !continues (f j)) with
        | some j => (stopResult j (f j), sleepSeq base factor i (j - i))
        | none =>
          match n, last with
          | 0, none => (.raisedNone, [])
          | 0, some (j, st) => (.raisedLast j st, [])
          | k + 1, _ => (.raisedLast (i + k) (statusOf (f (i + k))),
              sleepSeq base factor i (k + 1)) := by
  intro n
  induction n with
  | zero =>
    intro i last
    cases last with
    | none => rfl
    | some p =>
      cases p with
      | mk j st => rfl
  | succ m ih =>
    intro i last
    have hrange : List.range' i (m + 1) = i :: List.range' (i + 1) m := rfl
    cases hfi : f i with
    | ok v =>
      have hf : (List.range' i (m + 1)).find?
          (fun j => !continues (f j)) = some i := by
        rw [hrange]
        exact List.find?_cons_of_pos _ (by simp [continues, hfi])
      rw [hf]
      simp only [retryGo, hfi]
      simp [stopResult, Nat.sub_self, sleepSeq, List.range']
    | other =>
      have hf : (List.range' i (m + 1)).find?
          (fun j => !continues (f j)) = some i := by
        rw [hrange]
        exact List.find?_cons_of_pos _ (by simp [continues, hfi])
      rw [hf]
      simp only [retryGo, hfi]
      simp [stopResult, Nat.sub_self, sleepSeq, List.range']
    | retriable st =>
      cases hstop : stopStatus st with
      | true =>
        have hf : (List.range' i (m + 1)).find?
            (fun j => !continues (f j)) = some i := by
          rw [hrange]
          exact List.find?_cons_of_pos _ (by simp [continues, hfi, hstop])
        rw [hf]
        simp only [retryGo, hfi, hstop]
        simp [stopResult, hfi, Nat.sub_self, sleepSeq, List.range']
      | false =>
        have hf : (List.range' i (m + 1)).find? (fun j => !continues (f j)) =
            (List.range' (i + 1) m).find? (fun j => !continues (f j)) := by
          rw [hrange]
          exact List.find?_cons_of_neg _ (by simp [continues, hfi, hstop])
        rw [hf]
        simp only [retryGo, hfi, hstop]
        rw [ih (i + 1) (some (i, st))]
        cases hf2 : (List.range' (i + 1) m).find?
            (fun j => !continues (f j)) with
        | some j =>
          have hij : i + 1 ≤ j :=
            range1_lower m (i + 1) j (List.mem_of_find?_eq_some hf2)
          have e : j - i = (j - (i + 1)) + 1 := by omega
          simp only [Bool.false_eq_true, if_false]
          rw [e]
          rfl
        | none =>
          cases m with
          | zero =>
            simp [retryGo, sleepSeq, List.range', statusOf, hfi]
          | succ k =>
            have e : i + 1 + k = i + (k + 1) := by omega
            have hsl : sleepSeq base factor i (k + 1 + 1) =
                base * factor ^ i :: sleepSeq base factor (i + 1) (k + 1) :=
              rfl
            simp only [Bool.false_eq_true, if_false, hsl, e]

/-- Claim C6: the retry wrapper is the standard bounded exponential-backoff
loop.  Its behaviour is fully characterised by the first attempt index at
which the loop does not continue: a success there is returned unchanged
after that many attempts, an exception outside RETRIABLE propagates at once,
a RETRIABLE exception whose (truthy) status is not one of
429/500/502/503/504 is re-raised at once, and before that index every
attempt failed retriably and cost one back-off sleep of base_wait*factor^i;
when no such index exists below `times`, the loop makes exactly `times`
attempts, sleeps after each of them, and re-raises the last exception (for
times = 0 it raises the initial None). -/
theorem claim_C6 (f : Nat → Outcome α) (times : Nat) (base factor : ℚ) :
    retry f times base factor =
      match firstStopIdx f times with
      | some i => (stopResult i (f i), sleepSeq base factor 0 i)
      | none =>
        match times with
        | 0 => (.raisedNone, [])
        | k + 1 => (.raisedLast k (statusOf (f k)),
            sleepSeq base factor 0 (k + 1)) := by
  unfold retry firstStopIdx
  rw [retryGo_eq f base factor times 0 none, List.range_eq_range']
  cases hf : (List.range' 0 times).find? (fun j => !continues (f j)) with
  | some j => simp
  | none =>
    cases times with
    | zero => rfl
    | succ k => simp

/-! ## Claim C9: positional list lemmas -/

lemma map_fix (l : List String) (f : String → String)
    (h : ∀ a ∈ l, f a = a) : l.map f = l := by
  induction l with
  | nil => rfl
  | cons a t ih =>
    rw [List.map_cons, h a (List.mem_cons_self a t),
      ih (fun x hx => h x (List.mem_cons_of_mem a hx))]

lemma getD_map_lt {α β : Type} (f : α → β) :
    ∀ (l : List α) (i : Nat), i < l.length → ∀ (d1 : β) (d2 : α),
      (l.map f).getD i d1 = f (l.getD i d2) := by
  intro l
  induction l with
  | nil =>
    intro i hi
    simp at hi
  | cons a t ih =>
    intro i hi d1 d2
    cases i with
    | zero => rfl
    | succ m =>
      simp only [List.map_cons, List.getD_cons_succ]
      exact ih m (by simpa using hi) d1 d2

lemma zip_getD_lt {α β : Type} :
    ∀ (l1 : List α) (l2 : List β) (i : Nat), i < l1.length →
      i < l2.length → ∀ (d1 : α) (d2 : β),
      (l1.zip l2).getD i (d1, d2) = (l1.getD i d1, l2.getD i d2) := by
  intro l1
  induction l1 with
  | nil =>
    intro l2 i hi
    simp at hi
  | cons a t ih =>
    intro l2 i hi1 hi2 d1 d2
    cases l2 with
    | nil => simp at hi2
    | cons b u =>
      cases i with
      | zero => rfl
      | succ m =>
        simp only [List.zip_cons_cons, List.getD_cons_succ]
        exact ih u m (by simpa using hi1) (by simpa using hi2) d1 d2

lemma append_getD_lt {α : Type} :
    ∀ (l1 l2 : List α) (i : Nat) (d : α), i < l1.length →
      (l1 ++ l2).getD i d = l1.getD i d := by
  intro l1
  induction l1 with
  | nil =>
    intro l2 i d hi
    simp at hi
  | cons a t ih =>
    intro l2 i d hi
    cases i with
    | zero => rfl
    | succ m =>
      simp only [List.cons_append, List.getD_cons_succ]
      exact ih l2 m d (by simpa using hi)

lemma append_getD_ge {α : Type} :
    ∀ (l1 l2 : List α) (i : Nat) (d : α), l1.length ≤ i →
      (l1 ++ l2).getD i d = l2.getD (i - l1.length) d := by
  intro l1
  induction l1 with
  | nil =>
    intro l2 i d _
    rfl
  | cons a t ih =>
    intro l2 i d hi
    cases i with
    | zero => simp at hi
    | succ m =>
      simp only [List.cons_append, List.getD_cons_succ, List.length_cons]
      rw [ih l2 m d (by simpa using hi)]
      congr 1
      omega

lemma replicate_getD {α : Type} :
    ∀ (n i : Nat) (a d : α), i < n → (List.replicate n a).getD i d = a := by
  intro n
  induction n with
  | zero =>
    intro i a d hi
    simp at hi
  | succ m ih =>
    intro i a d hi
    cases i with
    | zero => rfl
    | succ k =>
      simp only [List.replicate_succ, List.getD_cons_succ]
      exact ih k a d (by simpa using hi)

lemma take_getD_lt {α : Type} :
    ∀ (l : List α) (n i : Nat) (d : α), i < n →
      (l.take n).getD i d = l.getD i d := by
  intro l
  induction l with
  | nil =>
    intro n i d _
    simp
  | cons a t ih =>
    intro n i d hi
    cases n with
    | zero => simp at hi
    | succ m =>
      cases i with
      | zero => rfl
      | succ k =>
        simp only [List.take_succ_cons, List.getD_cons_succ]
        exact ih m k d (by simpa using hi)

lemma zip_fst {α β : Type} :
    ∀ (l1 : List α) (l2 : List β), l1.length ≤ l2.length →
      (l1.zip l2).map Prod.fst = l1 := by
  intro l1
  induction l1 with
  | nil =>
    intro l2 _
    rfl
  | cons a t ih =>
    intro l2 h
    cases l2 with
    | nil => simp at h
    | cons b u =>
      simp only [List.zip_cons_cons, List.map_cons]
      rw [ih u (by simpa using h)]

/-- Claim C9: when the first sheet row equals the expected headers (which
carry no surrounding whitespace), safe_get_all_records returns without the
repair path a list with exactly one record per data row; every record is
keyed by exactly the expected headers in order, the value under the j-th key
is the j-th cell of the row with blank cells turned into missing values,
rows shorter than the header count read as missing beyond their end, and
longer rows are truncated; an entirely empty sheet yields the empty list. -/
theorem claim_C9 (vals : List (List String)) (expected : List String)
    (hexp : ∀ h ∈ expected, pyStrip h = h)
    (hhead : ∀ first rest, vals = first :: rest → first = expected) :
    ∃ recs, safe_get_all_records vals expected = some recs ∧
      recs.length = vals.length - 1 ∧
      (∀ rec ∈ recs, rec.map Prod.fst = expected) ∧
      (∀ i j, i < recs.length → j < expected.length →
        (recs.getD i []).getD j ("", none) =
          (expected.getD j "",
            if j < (vals.getD (i + 1) []).length
            then cellOpt ((vals.getD (i + 1) []).getD j "")
            else none)) := by
  cases vals with
  | nil =>
    refine ⟨[], rfl, rfl, ?_, ?_⟩
    · intro rec hrec
      simp at hrec
    · intro i j hi _
      simp at hi
  | cons first rest =>
    have hfe : first = expected := hhead first rest rfl
    subst hfe
    have hmap : first.map (fun h => pyStrip h) = first := map_fix first _ hexp
    have hsafe : safe_get_all_records (first :: rest) first =
        (if rest.isEmpty then some [] else some (rest.map (fun r =>
          first.zip (((r.map cellOpt).take first.length) ++
            List.replicate (first.length - r.length) none)))) := by
      show (if (first.map fun h => pyStrip h) ≠ first then none
        else if rest.isEmpty then some []
        else some (rest.map (fun r =>
          (first.map fun h => pyStrip h).zip
            (((r.map cellOpt).take (first.map fun h => pyStrip h).length) ++
              List.replicate
                ((first.map fun h => pyStrip h).length - r.length) none)))) =
        _
      rw [hmap, if_neg (fun hc => hc rfl)]
    cases rest with
    | nil =>
      refine ⟨[], by rw [hsafe]; rfl, rfl, ?_, ?_⟩
      · intro rec hrec
        simp at hrec
      · intro i j hi _
        simp at hi
    | cons r0 rest2 =>
      refine ⟨(r0 :: rest2).map (fun r =>
        first.zip (((r.map cellOpt).take first.length) ++
          List.replicate (first.length - r.length) none)),
        by rw [hsafe]; rfl, by simp, ?_, ?_⟩
      · intro rec hrec
        obtain ⟨r, _, rfl⟩ := List.mem_map.mp hrec
        apply zip_fst
        simp only [List.length_append, List.length_take, List.length_map,
          List.length_replicate]
        omega
      · intro i j hi hj
        have hi2 : i < (r0 :: rest2).length := by simpa using hi
        rw [getD_map_lt _ (r0 :: rest2) i hi2 [] []]
        have hv : ((first :: r0 :: rest2).getD (i + 1) []) =
            (r0 :: rest2).getD i [] := by
          simp [List.getD_cons_succ]
        rw [hv]
        have hplen : (((((r0 :: rest2).getD i []).map cellOpt).take
            first.length) ++ List.replicate
              (first.length - ((r0 :: rest2).getD i []).length) none).length =
            first.length := by
          simp only [List.length_append, List.length_take, List.length_map,
            List.length_replicate]
          omega
        rw [zip_getD_lt first _ j hj (by rw [hplen]; exact hj) "" none]
        by_cases hjr : j < ((r0 :: rest2).getD i []).length
        · rw [if_pos hjr]
          have h1 : j < ((((r0 :: rest2).getD i []).map cellOpt).take
              first.length).length := by
            simp only [List.length_take, List.length_map]
            omega
          rw [append_getD_lt _ _ j none h1, take_getD_lt _ _ j none hj,
            getD_map_lt cellOpt _ j hjr none ""]
        · rw [if_neg hjr]
          have h2 : ((((r0 :: rest2).getD i []).map cellOpt).take
              first.length).length ≤ j := by
            simp only [List.length_take, List.length_map]
            omega
          rw [append_getD_ge _ _ j none h2, replicate_getD]
          simp only [List.length_take, List.length_map]
          omega

/-- Witness for claim C9 on a concrete value matrix with a short row, a
long row and a blank cell, together with the concrete record list it
produces. -/
theorem claim_C9_witness :
    (∃ recs,
      safe_get_all_records
          [["id", "name"], ["1", " "], ["2", "Mio", "extra"]] ["id", "name"] =
        some recs ∧
      recs.length = 2 ∧
      (∀ rec ∈ recs, rec.map Prod.fst = ["id", "name"]) ∧
      (∀ i j, i < recs.length → j < (["id", "name"] : List String).length →
        (recs.getD i []).getD j ("", none) =
          ((["id", "name"] : List String).getD j "",
            if j < ([[ "id", "name"], ["1", " "],
                ["2", "Mio", "extra"]].getD (i + 1) []).length
            then cellOpt (([[ "id", "name"], ["1", " "],
                ["2", "Mio", "extra"]].getD (i + 1) []).getD j "")
            else none))) ∧
    safe_get_all_records
        [["id", "name"], ["1", " "], ["2", "Mio", "extra"]] ["id", "name"] =
      some [[("id", some "1"), ("name", none)],
        [("id", some "2"), ("name", some "Mio")]] := by
  refine ⟨claim_C9 [["id", "name"], ["1", " "], ["2", "Mio", "extra"]]
    ["id", "name"] (by decide) ?_, by decide⟩
  intro first rest h
  cases h
  rfl

/-! ## Claim C10 -/

lemma ensure_eq_insertPairs (today : String) (kids : List SKid)
    (goals : List SGoal) (cs : List SCheckin) :
    ensure_today_checkins today kids goals cs =
      insertPairs today (pairsOf (activeKidIds kids) (activeGoalIds goals))
        cs := by
  unfold ensure_today_checkins insertPairs
  generalize activeKidIds kids = ks
  generalize activeGoalIds goals = gs
  induction ks generalizing cs with
  | nil => rfl
  | cons k kt ih =>
    simp only [List.foldl_cons, pairsOf, List.foldl_append, List.foldl_map]
    exact ih _

lemma pairsOf_mem : ∀ (ks gs : List Int) (k g : Int),
    (k, g) ∈ pairsOf ks gs ↔ (k ∈ ks ∧ g ∈ gs) := by
  intro ks
  induction ks with
  | nil =>
    intro gs k g
    simp [pairsOf]
  | cons a t ih =>
    intro gs k g
    simp only [pairsOf, List.mem_append, List.mem_map, List.mem_cons, ih]
    constructor
    · rintro (⟨x, hx, he⟩ | ⟨hk, hg⟩)
      · cases he
        exact ⟨Or.inl rfl, hx⟩
      · exact ⟨Or.inr hk, hg⟩
    · rintro ⟨hk | hk, hg⟩
      · subst hk
        exact Or.inl ⟨g, hg, rfl⟩
      · exact Or.inr ⟨hk, hg⟩

lemma hasKey_append_left (cs l : List SCheckin) (d : String) (k g : Int)
    (h : hasKey cs d k g = true) : hasKey (cs ++ l) d k g = true := by
  simp only [hasKey, List.any_append]
  simp only [hasKey] at h
  rw [h]
  rfl

lemma insertPairs_mono (today : String) : ∀ (ps : List (Int × Int))
    (cs : List SCheckin) (k g : Int), hasKey cs today k g = true →
    hasKey (insertPairs today ps cs) today k g = true := by
  intro ps
  induction ps with
  | nil =>
    intro cs k g h
    exact h
  | cons p pt ih =>
    intro cs k g h
    rw [show insertPairs today (p :: pt) cs =
      insertPairs today pt (insertOrIgnore today p.1 p.2 cs) from rfl]
    apply ih
    by_cases hk : hasKey cs today p.1 p.2
    · simpa [insertOrIgnore, hk] using h
    · have hins : insertOrIgnore today p.1 p.2 cs =
          cs ++ [⟨today, p.1, p.2, 0, 0⟩] := by
        simp [insertOrIgnore, hk]
      rw [hins]
      exact hasKey_append_left cs _ today k g h

lemma insertPairs_covers (today : String) : ∀ (ps : List (Int × Int))
    (cs : List SCheckin) (k g : Int), (k, g) ∈ ps →
    hasKey (insertPairs today ps cs) today k g = true := by
  intro ps
  induction ps with
  | nil =>
    intro cs k g h
    simp at h
  | cons p pt ih =>
    intro cs k g h
    rw [show insertPairs today (p :: pt) cs =
      insertPairs today pt (insertOrIgnore today p.1 p.2 cs) from rfl]
    rcases List.mem_cons.mp h with h1 | h2
    · apply insertPairs_mono
      cases h1
      by_cases hk : hasKey cs today k g
      · simp [insertOrIgnore, hk]
      · have hins : insertOrIgnore today k g cs =
            cs ++ [⟨today, k, g, 0, 0⟩] := by
          simp [insertOrIgnore, hk]
        rw [hins]
        simp [hasKey, List.any_append]
    · exact ih _ k g h2

lemma insertPairs_fixed (today : String) : ∀ (ps : List (Int × Int))
    (cs : List SCheckin), (∀ p ∈ ps, hasKey cs today p.1 p.2 = true) →
    insertPairs today ps cs = cs := by
  intro ps
  induction ps with
  | nil =>
    intro cs _
    rfl
  | cons p pt ih =>
    intro cs h
    rw [show insertPairs today (p :: pt) cs =
      insertPairs today pt (insertOrIgnore today p.1 p.2 cs) from rfl]
    have hins : insertOrIgnore today p.1 p.2 cs = cs := by
      simp [insertOrIgnore, h p (List.mem_cons_self p pt)]
    rw [hins]
    exact ih cs (fun q hq => h q (List.mem_cons_of_mem p hq))

lemma insertPairs_exists (today : String) : ∀ (ps : List (Int × Int))
    (cs : List SCheckin),
    ∃ app, insertPairs today ps cs = cs ++ app ∧
      ∀ c ∈ app, c.d = today ∧ c.self_checked = 0 ∧ c.parent_approved = 0 ∧
        (c.kid_id, c.goal_id) ∈ ps ∧
        hasKey cs today c.kid_id c.goal_id = false := by
  intro ps
  induction ps with
  | nil =>
    intro cs
    refine ⟨[], by simp [insertPairs], ?_⟩
    intro c hc
    simp at hc
  | cons p pt ih =>
    intro cs
    rw [show insertPairs today (p :: pt) cs =
      insertPairs today pt (insertOrIgnore today p.1 p.2 cs) from rfl]
    by_cases hk : hasKey cs today p.1 p.2
    · have hins : insertOrIgnore today p.1 p.2 cs = cs := by
        simp [insertOrIgnore, hk]
      rw [hins]
      obtain ⟨app, he, hp⟩ := ih cs
      refine ⟨app, he, fun c hc => ?_⟩
      obtain ⟨h1, h2, h3, h4, h5⟩ := hp c hc
      exact ⟨h1, h2, h3, List.mem_cons_of_mem p h4, h5⟩
    · have hins : insertOrIgnore today p.1 p.2 cs =
          cs ++ [⟨today, p.1, p.2, 0, 0⟩] := by
        simp [insertOrIgnore, hk]
      rw [hins]
      obtain ⟨app, he, hp⟩ := ih (cs ++ [⟨today, p.1, p.2, 0, 0⟩])
      refine ⟨⟨today, p.1, p.2, 0, 0⟩ :: app, by rw [he, List.append_assoc]; rfl,
        ?_⟩
      intro c hc
      have hkf : hasKey cs today p.1 p.2 = false := by
        revert hk
        cases hasKey cs today p.1 p.2 <;> simp
      rcases List.mem_cons.mp hc with h | h
      · subst h
        exact ⟨rfl, rfl, rfl, List.mem_cons_self p pt, hkf⟩
      · obtain ⟨h1, h2, h3, h4, h5⟩ := hp c h
        refine ⟨h1, h2, h3, List.mem_cons_of_mem p h4, ?_⟩
        revert h5
        cases hck : hasKey cs today c.kid_id c.goal_id
        · intro _
          rfl
        · intro h5
          rw [hasKey_append_left cs _ today c.kid_id c.goal_id hck] at h5
          exact h5

lemma hasKey_false_keys (cs : List SCheckin) (d : String) (k g : Int)
    (h : hasKey cs d k g = false) : ∀ c ∈ cs, keyOf c ≠ (d, k, g) := by
  intro c hc he
  have hcomp : (c.d == d && c.kid_id == k && c.goal_id == g) = true := by
    simp only [keyOf, Prod.mk.injEq] at he
    simp [he.1, he.2.1, he.2.2]
  have hx : hasKey cs d k g = true := by
    unfold hasKey
    rw [List.any_eq_true]
    exact ⟨c, hc, hcomp⟩
  rw [h] at hx
  exact Bool.false_ne_true hx

lemma insertPairs_nodup (today : String) : ∀ (ps : List (Int × Int))
    (cs : List SCheckin), keysNodup cs →
    keysNodup (insertPairs today ps cs) := by
  intro ps
  induction ps with
  | nil =>
    intro cs h
    exact h
  | cons p pt ih =>
    intro cs h
    rw [show insertPairs today (p :: pt) cs =
      insertPairs today pt (insertOrIgnore today p.1 p.2 cs) from rfl]
    apply ih
    by_cases hk : hasKey cs today p.1 p.2
    · simpa [insertOrIgnore, hk] using h
    · have hins : insertOrIgnore today p.1 p.2 cs =
          cs ++ [⟨today, p.1, p.2, 0, 0⟩] := by
        simp [insertOrIgnore, hk]
      rw [hins]
      unfold keysNodup
      rw [List.pairwise_append]
      refine ⟨h, List.pairwise_singleton _ _, ?_⟩
      intro a ha b hb
      have hb2 : b = ⟨today, p.1, p.2, 0, 0⟩ := by simpa using hb
      subst hb2
      have hkf : hasKey cs today p.1 p.2 = false := by
        revert hk
        cases hasKey cs today p.1 p.2 <;> simp
      exact hasKey_false_keys cs today p.1 p.2 hkf a ha

/-- Claim C10: ensure_today_checkins is idempotent; it extends the checkins
table by exactly the rows (today, kid, goal, 0, 0) for active kids and
active goals whose key was absent, modifying no existing row; after it,
every active kid-goal pair has a check-in for today; and it preserves the
at-most-one-row-per-(d, kid_id, goal_id) invariant of the UNIQUE
constraint. -/
theorem claim_C10 (today : String) (kids : List SKid) (goals : List SGoal)
    (cs : List SCheckin) :
    ensure_today_checkins today kids goals
        (ensure_today_checkins today kids goals cs) =
      ensure_today_checkins today kids goals cs ∧
    (∃ app, ensure_today_checkins today kids goals cs = cs ++ app ∧
      ∀ c ∈ app, c.d = today ∧ c.self_checked = 0 ∧ c.parent_approved = 0 ∧
        c.kid_id ∈ activeKidIds kids ∧ c.goal_id ∈ activeGoalIds goals ∧
        hasKey cs today c.kid_id c.goal_id = false) ∧
    (∀ k g, k ∈ activeKidIds kids → g ∈ activeGoalIds goals →
      hasKey (ensure_today_checkins today kids goals cs) today k g = true) ∧
    (keysNodup cs → keysNodup (ensure_today_checkins today kids goals cs))
    := by
  refine ⟨?_, ?_, ?_, ?_⟩
  · rw [ensure_eq_insertPairs today kids goals cs,
      ensure_eq_insertPairs today kids goals]
    apply insertPairs_fixed
    intro p hp
    exact insertPairs_covers today _ cs p.1 p.2 hp
  · rw [ensure_eq_insertPairs today kids goals cs]
    obtain ⟨app, h1, h2⟩ := insertPairs_exists today
      (pairsOf (activeKidIds kids) (activeGoalIds goals)) cs
    refine ⟨app, h1, fun c hc => ?_⟩
    obtain ⟨hd, hs, hpa, hmem, hkey⟩ := h2 c hc
    have hm := (pairsOf_mem _ _ _ _).mp hmem
    exact ⟨hd, hs, hpa, hm.1, hm.2, hkey⟩
  · intro k g hk hg
    rw [ensure_eq_insertPairs today kids goals cs]
    exact insertPairs_covers today _ cs k g ((pairsOf_mem _ _ _ _).mpr ⟨hk, hg⟩)
  · intro hnd
    rw [ensure_eq_insertPairs today kids goals cs]
    exact insertPairs_nodup today _ cs hnd

/-- Witness for claim C10: one active kid and one active goal over the empty
table, with the concrete resulting table. -/
theorem claim_C10_witness :
    hasKey (ensure_today_checkins "2025-09-14" [⟨1, "Mio", "e1", 1⟩]
      [⟨2, "run", 3, "sport", 1⟩] []) "2025-09-14" 1 2 = true ∧
    keysNodup (ensure_today_checkins "2025-09-14" [⟨1, "Mio", "e1", 1⟩]
      [⟨2, "run", 3, "sport", 1⟩] []) ∧
    ensure_today_checkins "2025-09-14" [⟨1, "Mio", "e1", 1⟩]
      [⟨2, "run", 3, "sport", 1⟩] [] = [⟨"2025-09-14", 1, 2, 0, 0⟩] := by
  refine ⟨(claim_C10 "2025-09-14" [⟨1, "Mio", "e1", 1⟩]
      [⟨2, "run", 3, "sport", 1⟩] []).2.2.1 1 2 (by decide) (by decide),
    (claim_C10 "2025-09-14" [⟨1, "Mio", "e1", 1⟩]
      [⟨2, "run", 3, "sport", 1⟩] []).2.2.2 List.Pairwise.nil,
    by decide⟩
